import Mathlib

/-!
Verification development for the series-synchronization engine of a
lightweight-charts based application.

The definitions below are a shallow embedding of the TypeScript sources:
  * the source registry (series-source-lookup: `SeriesSources`,
    `Indicators`, `SeriesSourceConfigs`),
  * the series factory and series manager (series-config:
    `addLineSeries`, `addHistogramSeries`, `addCandlestickSeries`,
    `createSeriesInstance`, `getSourceOptions`, `createTradeEventMarkers`,
    `SeriesManager.addSeriesFromCsv`, `SeriesManager.getPaneIndex`,
    `SeriesManager.updateAll`, `SeriesManager.setSeriesData`,
    `SeriesManager.updateUI`, `SeriesManager.cleanup`,
    `SeriesManager.toggleSeriesVisibility`),
  * the CSV parser (csv-parser: `CSVParser`),
  * the hierarchical dropdown checkbox logic (chart-dropdown:
    `updateGroupCheckboxState`, `handleGroupCheckbox`, `handleSubCheckbox`).

Modelling conventions:
  * The chart surface is a state record.  Series handles are natural
    numbers allocated by a counter; `Chart.series` maps a handle to the
    series placed on the chart.  `moveToPane` creates panes on demand,
    so the stored pane count is bumped to cover the target index, which
    mirrors the rendering library's behaviour of materialising a pane
    when a series is moved onto it.
  * JavaScript `Map` objects are association lists with `Map.set`
    semantics: an existing key is updated in place (keeping its
    position in iteration order), a new key is appended.
  * Thrown JavaScript exceptions are `Except.error` results.  Stateful
    operations that can throw return the state as mutated up to the
    point of the throw, so that "prior state preserved" is a real
    statement and not an artefact of the embedding.
  * Numeric cell contents and timestamps are carried as their raw CSV
    text: no claim inspects the floating-point values, and time
    normalisation (`Date.parse` / `parseFloat`) is out of scope.
  * Purely visual configuration that no claim mentions (scale margins,
    line widths, price formats, autoscale flags) is elided from the
    options record; the colour and visibility options, which claims do
    mention, are kept.
-/

/-! ## The source registry (series-source-lookup) -/

/-- The three visual kinds of the rendering library used by the code. -/
inductive SeriesType
  | Candlestick
  | Histogram
  | Line
deriving DecidableEq, Repr, Fintype

/-- Indicator group ids from the `Indicators` table. -/
inductive Indicator
  | bollinger_bands
  | donchian_channel
  | dmi
deriving DecidableEq, Repr, Fintype

/-- Source keys, in the declaration order of the `SeriesSources` table.
The `ama` key is referenced by the series manager (its occurrence
counter and its dedicated switch case); its registry entry is the
adaptive-moving-average overlay line appended after `atr`. -/
inductive SeriesSource
  | candlestick
  | volume
  | bb_upper
  | bb_middle
  | bb_lower
  | dc_upper
  | dc_middle
  | dc_lower
  | adx
  | plusDi
  | minusDi
  | aer
  | atr
  | ama
deriving DecidableEq, Repr, Fintype

/-- The textual key of a source, as used for column matching. -/
def keyStr : SeriesSource → String
  | .candlestick => "candlestick"
  | .volume => "volume"
  | .bb_upper => "bb_upper"
  | .bb_middle => "bb_middle"
  | .bb_lower => "bb_lower"
  | .dc_upper => "dc_upper"
  | .dc_middle => "dc_middle"
  | .dc_lower => "dc_lower"
  | .adx => "adx"
  | .plusDi => "plusDi"
  | .minusDi => "minusDi"
  | .aer => "aer"
  | .atr => "atr"
  | .ama => "ama"

/-- `Object.keys(SeriesSources)`: the source keys in declaration order. -/
def sourceKeysInOrder : List SeriesSource :=
  [.candlestick, .volume, .bb_upper, .bb_middle, .bb_lower,
   .dc_upper, .dc_middle, .dc_lower, .adx, .plusDi, .minusDi,
   .aer, .atr, .ama]

/-- The visual kind of each source (the `SeriesSources` table values). -/
def seriesTypeOf : SeriesSource → SeriesType
  | .candlestick => .Candlestick
  | .volume => .Histogram
  | _ => .Line

/-- The optional indicator group of each source
(`SeriesSourceConfigs[s].indicator`). -/
def indicatorOf : SeriesSource → Option Indicator
  | .bb_upper | .bb_middle | .bb_lower => some .bollinger_bands
  | .dc_upper | .dc_middle | .dc_lower => some .donchian_channel
  | .adx | .plusDi | .minusDi => some .dmi
  | _ => none

/-- The key string of an indicator group id. -/
def indicatorKeyStr : Indicator → String
  | .bollinger_bands => "bollinger_bands"
  | .donchian_channel => "donchian_channel"
  | .dmi => "dmi"

/-- The display label of an indicator group (the `Indicators` table). -/
def indicatorLabelStr : Indicator → String
  | .bollinger_bands => "Bollinger Bands"
  | .donchian_channel => "Donchian Channel"
  | .dmi => "DMI"

/-- The display label of each source (`SeriesSourceConfigs[s].label`).
The label for `ama` is modelled from the spec (the registry entry for
the adaptive moving average is not among the given sources); no claim
depends on it. -/
def labelOf : SeriesSource → String
  | .candlestick => "Candlestick"
  | .volume => "Volume"
  | .bb_upper => "BB Upper"
  | .bb_middle => "BB Middle"
  | .bb_lower => "BB Lower"
  | .dc_upper => "DC Upper"
  | .dc_middle => "DC Middle"
  | .dc_lower => "DC Lower"
  | .adx => "ADX"
  | .plusDi => "+DI"
  | .minusDi => "-DI"
  | .aer => "AER"
  | .atr => "ATR"
  | .ama => "AMA"

/-- The style options of one series: the colour (absent for the
candlestick entry) and the visibility flag toggled by
`toggleSeriesVisibility`.  Other style parameters are not referenced
by any claim and are elided. -/
structure SeriesOptions where
  color : Option String := none
  visible : Bool := true
deriving DecidableEq, Repr

/-- The base style options of each source
(`SeriesSourceConfigs[s].seriesOptions`). -/
def baseOptions : SeriesSource → SeriesOptions
  | .candlestick => { color := none }
  | .volume => { color := some "#26a69a" }
  | .bb_upper => { color := some "#87312b" }
  | .bb_middle => { color := some "#9e9e00" }
  | .bb_lower => { color := some "#87312b" }
  | .dc_upper => { color := some "#181577" }
  | .dc_middle => { color := some "#273186" }
  | .dc_lower => { color := some "#181577" }
  | .adx => { color := some "#9e6500" }
  | .plusDi => { color := some "#ffaf3e" }
  | .minusDi => { color := some "#ffe5c6" }
  | .aer => { color := some "#00ff00" }
  | .atr => { color := some "#00ff00" }
  | .ama => { color := some "#00ff00" }

/-! ## Per-occurrence colouring (`getSourceOptions`) -/

/-- The fixed palette rows of the `sourceColorMap` in
`getSourceOptions`. -/
def bbUlPalette : List String := ["#87312b", "#c22929", "#dc7369"]

def bbMPalette : List String := ["#9e9e00", "#ffff00", "#feff83"]

def dcUlPalette : List String := ["#181577", "#2e29c2", "#5f73da"]

def dcMPalette : List String := ["#273186", "#800080", "#a95ea7"]

/-- Which palette row a band source selects in the switch of
`getSourceOptions` (empty for sources outside the switch). -/
def paletteOf : SeriesSource → List String
  | .bb_upper | .bb_lower => bbUlPalette
  | .bb_middle => bbMPalette
  | .dc_upper | .dc_lower => dcUlPalette
  | .dc_middle => dcMPalette
  | _ => []

/-- The Bollinger/Donchian band sources (the `BbAndDc` type): the
sources whose colour is overridden per occurrence. -/
def isBandKey : SeriesSource → Bool
  | .bb_upper | .bb_middle | .bb_lower
  | .dc_upper | .dc_middle | .dc_lower => true
  | _ => false

/-- `getSourceOptions(source, num)`: copy the base options of the
source and override the colour with `sourceColorMap[row][num]`.
An out-of-range `num` indexes past the palette row and yields an
undefined colour (`none`), exactly as the JavaScript array access
does; there is no modulo wrap in the code. -/
def getSourceOptions (source : SeriesSource) (num : Nat) : SeriesOptions :=
  let sourceOptions := baseOptions source
  match source with
  | .bb_upper | .bb_lower => { sourceOptions with color := bbUlPalette.get? num }
  | .bb_middle => { sourceOptions with color := bbMPalette.get? num }
  | .dc_upper | .dc_lower => { sourceOptions with color := dcUlPalette.get? num }
  | .dc_middle => { sourceOptions with color := dcMPalette.get? num }
  | _ => sourceOptions

/-! ## The chart surface -/

/-- One rendering series owned by the chart surface. -/
structure ChartSeries where
  stype : SeriesType
  options : SeriesOptions
  pane : Nat
deriving DecidableEq, Repr

/-- The chart surface: series handles are allocated from `nextHandle`;
`paneCount` is the number of display panes currently materialised
(`chart.panes().length`), at least one (the main price pane). -/
structure Chart where
  series : Nat → Option ChartSeries
  nextHandle : Nat
  paneCount : Nat

/-- A freshly created chart: no series, one (main) pane. -/
def initialChart : Chart :=
  { series := fun _ => none, nextHandle := 0, paneCount := 1 }

/-- `chart.addSeries(kind, options)`: creates a rendering series on the
main pane and returns its handle. -/
def Chart.addSeriesC (c : Chart) (ty : SeriesType) (opts : SeriesOptions) :
    Nat × Chart :=
  (c.nextHandle,
   { c with
     series := fun h =>
       if h = c.nextHandle then some { stype := ty, options := opts, pane := 0 }
       else c.series h,
     nextHandle := c.nextHandle + 1 })

/-- `series.moveToPane(p)`: moves a series onto pane `p`, materialising
that pane if it does not exist yet. -/
def Chart.movePane (c : Chart) (h p : Nat) : Chart :=
  { c with
    series := fun h' =>
      if h' = h then (c.series h').map (fun s => { s with pane := p })
      else c.series h',
    paneCount := max c.paneCount (p + 1) }

/-- `series.getPane().paneIndex()`: the pane a series currently sits on. -/
def Chart.paneOf (c : Chart) (h : Nat) : Nat :=
  ((c.series h).map (fun s => s.pane)).getD 0

/-- `chart.removeSeries(handle)`. -/
def Chart.removeSeriesC (c : Chart) (h : Nat) : Chart :=
  { c with series := fun h' => if h' = h then none else c.series h' }

/-- `series.applyOptions(\x7b visible \x7d)`: merge the visibility flag
into the series options. -/
def Chart.applyVisible (c : Chart) (h : Nat) (v : Bool) : Chart :=
  { c with
    series := fun h' =>
      if h' = h then
        (c.series h').map (fun s => { s with options := { s.options with visible := v } })
      else c.series h' }

/-! ## Series factory (series-config factory functions) -/

/-- `addLineSeries(chart, options?, paneIndex?)`: create a line series;
a truthy (non-zero) pane index moves the new series onto that pane. -/
def addLineSeries (c : Chart) (opts : Option SeriesOptions) (paneIndex : Option Nat) :
    Nat × Chart :=
  let (h, c) := c.addSeriesC .Line (opts.getD {})
  match paneIndex with
  | some p => if p ≠ 0 then (h, c.movePane h p) else (h, c)
  | none => (h, c)

/-- `addHistogramSeries(chart, options?, paneIndex?)`. -/
def addHistogramSeries (c : Chart) (opts : Option SeriesOptions) (paneIndex : Option Nat) :
    Nat × Chart :=
  let (h, c) := c.addSeriesC .Histogram (opts.getD {})
  match paneIndex with
  | some p => if p ≠ 0 then (h, c.movePane h p) else (h, c)
  | none => (h, c)

/-- `addCandlestickSeries(chart, options?, paneIndex?)`. -/
def addCandlestickSeries (c : Chart) (opts : Option SeriesOptions) (paneIndex : Option Nat) :
    Nat × Chart :=
  let (h, c) := c.addSeriesC .Candlestick (opts.getD {})
  match paneIndex with
  | some p => if p ≠ 0 then (h, c.movePane h p) else (h, c)
  | none => (h, c)

/-- A data point of a line or histogram series; the time and the value
are the raw CSV cell texts (their numeric interpretation is not needed
by any claim). -/
structure LinePoint where
  time : String
  value : String
deriving DecidableEq, Repr

/-- A data point of the candlestick series. -/
structure CandlePoint where
  time : String
  open_ : String
  high : String
  low : String
  close : String
deriving DecidableEq, Repr

/-- The data held by one series instance, per visual kind. -/
inductive SeriesData
  | candle (pts : List CandlePoint)
  | hist (pts : List LinePoint)
  | line (pts : List LinePoint)
deriving DecidableEq, Repr

/-- One `SeriesInstance` of the series manager.  `series` is the chart
handle, `legendElement` the identifier of the legend DOM element. -/
structure SeriesInstance where
  suffix : Option String
  seriesSource : SeriesSource
  seriesType : SeriesType
  series : Nat
  data : Option SeriesData := none
  legendElement : Nat
deriving DecidableEq, Repr

/-- `createSeriesInstance(seriesSource, seriesType, chart, seriesOptions?,
paneIndex?, suffix?)`.  The switch forwards the options and pane index
only as the code does: the candlestick case calls
`addCandlestickSeries(chart)` with neither, the histogram case forwards
only the options, the line case forwards both.  The `undefined` result
of the code's defensive default branch is unreachable here because the
kind type has exactly the three known constructors.  The second
returned component is the mutated chart, the third the next fresh
legend-element id. -/
def createSeriesInstance (seriesSource : SeriesSource) (seriesType : SeriesType)
    (c : Chart) (seriesOptions : Option SeriesOptions) (paneIndex : Option Nat)
    (suffix : Option String) (nextLegend : Nat) :
    SeriesInstance × Chart × Nat :=
  let (h, c) :=
    match seriesType with
    | .Candlestick => addCandlestickSeries c none none
    | .Histogram => addHistogramSeries c seriesOptions none
    | .Line => addLineSeries c seriesOptions paneIndex
  ({ suffix := suffix, seriesSource := seriesSource, seriesType := seriesType,
     series := h, legendElement := nextLegend }, c, nextLegend + 1)

/-! ## Trade-event markers -/

/-- A `TradeEvent` row of the CSV parser (time kept as raw text). -/
structure TradeEvent where
  time : String
  event : String
deriving DecidableEq, Repr

/-- One series marker. -/
structure Marker where
  time : String
  position : String
  color : String
  shape : String
  text : String
deriving DecidableEq, Repr

/-- `event_string.includes(pattern)`. -/
def strContains (s pat : String) : Bool :=
  decide (pat.toList <:+: s.toList)

/-- The body of the loop of `createTradeEventMarkers`: the four
conditional pushes for one trade event, in source order. -/
def tradeEventStep (acc : List Marker) (e : TradeEvent) : List Marker :=
  let acc := if strContains e.event "LongEntry" then
      acc ++ [{ time := e.time, position := "belowBar", color := "#2196F3",
                shape := "arrowUp", text := "Long" }] else acc
  let acc := if strContains e.event "ShortEntry" then
      acc ++ [{ time := e.time, position := "aboveBar", color := "#FF5733",
                shape := "arrowDown", text := "Short" }] else acc
  let acc := if strContains e.event "LongExit" then
      acc ++ [{ time := e.time, position := "belowBar", color := "#2196F3",
                shape := "circle", text := "  " }] else acc
  let acc := if strContains e.event "ShortExit" then
      acc ++ [{ time := e.time, position := "aboveBar", color := "#FF5733",
                shape := "square", text := "  " }] else acc
  acc

/-- `createTradeEventMarkers(tradeEvents)`: push the matching markers
for each event in order. -/
def createTradeEventMarkers (tradeEvents : List TradeEvent) : List Marker :=
  tradeEvents.foldl tradeEventStep []

/-! ## The CSV parser (csv-parser) -/

/-! Executable string primitives.  The embedding uses character-list
implementations of `trim`, `split`, `startsWith`, `toUpperCase` and
`slice` so that every definition evaluates on concrete inputs; they
compute the same functions as the JavaScript string methods used by
the code. -/

/-- `text.split(sep)` on a one-character separator, JavaScript
semantics: splitting the empty text yields one empty piece, a trailing
separator yields a trailing empty piece. -/
def splitChar (sep : Char) : List Char → List (List Char)
  | [] => [[]]
  | c :: cs =>
    let rest := splitChar sep cs
    if c = sep then [] :: rest
    else
      match rest with
      | [] => [[c]]
      | piece :: pieces => (c :: piece) :: pieces

def strSplitChar (s : String) (sep : Char) : List String :=
  (splitChar sep s.data).map (fun cs => String.mk cs)

/-- `text.trim()`: strip whitespace from both ends. -/
def strTrim (s : String) : String :=
  String.mk (((s.data.dropWhile Char.isWhitespace).reverse.dropWhile
    Char.isWhitespace).reverse)

/-- `text.startsWith(p)`. -/
def strStartsWith (s p : String) : Bool :=
  p.data.isPrefixOf s.data

/-- `text.toUpperCase()` (ASCII, as used for the group symbols). -/
def strToUpper (s : String) : String :=
  String.mk (s.data.map Char.toUpper)

/-- `text.slice(0, n)`. -/
def strTake (s : String) (n : Nat) : String :=
  String.mk (s.data.take n)

/-- `text.slice(n)`. -/
def strDrop (s : String) (n : Nat) : String :=
  String.mk (s.data.drop n)

/-- The parser state: the header row and the kept data rows, each row
an association of header name to cell text. -/
structure CSVData where
  headers : List String
  data : List (List (String × String))
deriving DecidableEq, Repr

/-- `CSVParser._parseCSV`, including the two thrown errors.  Rows whose
cell count differs from the header count are skipped (with a console
warning in the code). -/
def parseCSV (csvText : String) : Except String CSVData :=
  if strTrim csvText = "" then .error "CSV text cannot be empty."
  else
    let rows := strSplitChar (strTrim csvText) '\n'
    if rows.length < 2 then
      .error "CSV must contain a header row and at least one data row."
    else
      let headers := (strSplitChar (rows.headD "") ',').map strTrim
      let data := rows.tail.filterMap (fun r =>
        let values := (strSplitChar r ',').map strTrim
        if values.length = headers.length then some (headers.zip values) else none)
      .ok { headers := headers, data := data }

/-- Cell lookup in one row (`row[key]`); every kept row binds every
header, so the default is never hit on parser-produced rows. -/
def rowGet (row : List (String × String)) (key : String) : String :=
  ((row.find? (fun p => p.1 == key)).map (fun p => p.2)).getD ""

/-- `CSVParser._validateColumns` combined with the no-data guard shared
by all four public parse methods. -/
def validateParse (d : CSVData) (requiredColumns : List String) : Except String Unit :=
  if d.data.isEmpty then
    .error "No data available to parse. Ensure CSV was loaded correctly."
  else
    let missingColumns := requiredColumns.filter (fun col => ¬ d.headers.contains col)
    if missingColumns.isEmpty then .ok ()
    else .error ("Missing required columns: " ++ String.intercalate ", " missingColumns)

/-- `CSVParser.parseLineData(requiredColumn)`. -/
def parseLineData (d : CSVData) (requiredColumn : String) :
    Except String (List LinePoint) := do
  let _ ← validateParse d ["time", requiredColumn]
  .ok (d.data.map (fun row =>
    { time := rowGet row "time", value := rowGet row requiredColumn }))

/-- `CSVParser.parseHistogramData(requiredColumn)`. -/
def parseHistogramData (d : CSVData) (requiredColumn : String) :
    Except String (List LinePoint) := do
  let _ ← validateParse d ["time", requiredColumn]
  .ok (d.data.map (fun row =>
    { time := rowGet row "time", value := rowGet row requiredColumn }))

/-- `CSVParser.parseCandlestickData()`. -/
def parseCandlestickData (d : CSVData) : Except String (List CandlePoint) := do
  let _ ← validateParse d ["time", "open", "high", "low", "close"]
  .ok (d.data.map (fun row =>
    { time := rowGet row "time", open_ := rowGet row "open",
      high := rowGet row "high", low := rowGet row "low",
      close := rowGet row "close" }))

/-- `CSVParser.parseTradeEvents()`. -/
def parseTradeEvents (d : CSVData) : Except String (List TradeEvent) := do
  let _ ← validateParse d ["time", "event"]
  .ok (d.data.map (fun row =>
    { time := rowGet row "time", event := rowGet row "event" }))

/-! ## JavaScript `Map` as an association list -/

/-- `Map.set`: update an existing key in place (keeping its position in
iteration order) or append a new binding. -/
def mapSet (m : List (String × SeriesInstance)) (k : String) (v : SeriesInstance) :
    List (String × SeriesInstance) :=
  if m.any (fun p => p.1 == k) then
    m.map (fun p => if p.1 == k then (k, v) else p)
  else m ++ [(k, v)]

/-- `Map.get`. -/
def mapGet? (m : List (String × SeriesInstance)) (k : String) :
    Option SeriesInstance :=
  (m.find? (fun p => p.1 == k)).map (fun p => p.2)

/-! ## Discovery pass (SeriesManager.addSeriesFromCsv) -/

/-- The per-pass occurrence counters (`sourceCount`), all starting at
zero. -/
def initialCounts : SeriesSource → Nat := fun _ => 0

/-- Increment one source's occurrence counter. -/
def bumpCount (counts : SeriesSource → Nat) (s : SeriesSource) : SeriesSource → Nat :=
  fun t => if t = s then counts t + 1 else counts t

/-- The local state of one discovery pass: the instance map under
construction, the chart, the next legend-element id and the occurrence
counters. -/
structure PassState where
  m : List (String × SeriesInstance)
  chart : Chart
  nextLegend : Nat
  counts : SeriesSource → Nat

/-- `Object.keys(sl.SeriesSources).find(s => header.startsWith(s))`:
the first source key, in registry declaration order, that is a textual
prefix of the column name. -/
def matchSource (header : String) : Option SeriesSource :=
  sourceKeysInOrder.find? (fun s => strStartsWith header (keyStr s))

/-- The sources routed through `getPaneIndex` (the generic bound of
that method): the oscillator-style own-pane indicators. -/
def isOwnPane : SeriesSource → Bool
  | .adx | .plusDi | .minusDi | .aer | .atr => true
  | _ => false

/-- The group of a series for pane assignment:
`SeriesSourceConfigs[s].indicator ?? s`. -/
def groupOfSource (s : SeriesSource) : String :=
  match indicatorOf s with
  | some i => indicatorKeyStr i
  | none => keyStr s

/-- `SeriesManager.getPaneIndex(seriesSource, seriesInstances)`: scan
the instances built so far in this pass; the first one in the same
group fixes the pane, otherwise a new pane is appended at index
`chart.panes().length`. -/
def getPaneIndex (seriesSource : SeriesSource) (c : Chart) :
    List (String × SeriesInstance) → Nat
  | [] => c.paneCount
  | p :: rest =>
    if groupOfSource p.2.seriesSource = groupOfSource seriesSource then
      c.paneOf p.2.series
    else getPaneIndex seriesSource c rest

/-- One iteration of the header loop of `addSeriesFromCsv`: match the
column name against the source keys and, on a match, build and record
an instance.  The own-pane oscillators pass a pane index, the band
sources pass the per-occurrence colour override, every other matched
source (`ama` and the default case) passes its base options on the
main pane. -/
def discoverStep (st : PassState) (header : String) : PassState :=
  match matchSource header with
  | none => st
  | some matchingSource =>
    let suffix := strDrop header (keyStr matchingSource).length
    if isOwnPane matchingSource then
      let paneIndex := getPaneIndex matchingSource st.chart st.m
      let (inst, c, nl) := createSeriesInstance matchingSource
        (seriesTypeOf matchingSource) st.chart
        (some (baseOptions matchingSource)) (some paneIndex) (some suffix)
        st.nextLegend
      { m := mapSet st.m header inst, chart := c, nextLegend := nl,
        counts := bumpCount st.counts matchingSource }
    else if isBandKey matchingSource then
      let (inst, c, nl) := createSeriesInstance matchingSource
        (seriesTypeOf matchingSource) st.chart
        (some (getSourceOptions matchingSource (st.counts matchingSource)))
        none (some suffix) st.nextLegend
      { m := mapSet st.m header inst, chart := c, nextLegend := nl,
        counts := bumpCount st.counts matchingSource }
    else
      let (inst, c, nl) := createSeriesInstance matchingSource
        (seriesTypeOf matchingSource) st.chart
        (some (baseOptions matchingSource)) none (some suffix) st.nextLegend
      { m := mapSet st.m header inst, chart := c, nextLegend := nl,
        counts := bumpCount st.counts matchingSource }

/-- `['open','high','low','close'].every(c => rawCsvHeaders.includes(c))`. -/
def allOhlcPresent (headers : List String) : Bool :=
  ["open", "high", "low", "close"].all (fun c => headers.contains c)

/-- `SeriesManager.addSeriesFromCsv`: build the candlestick instance
under the reserved key when all four price columns are present (its
suffix argument is omitted in the call), then run the header loop.
Returns the new instance map, the mutated chart and the next
legend-element id. -/
def addSeriesFromCsv (headers : List String) (chart : Chart) (nextLegend : Nat) :
    List (String × SeriesInstance) × Chart × Nat :=
  let s0 : PassState :=
    { m := [], chart := chart, nextLegend := nextLegend, counts := initialCounts }
  let s1 :=
    if allOhlcPresent headers then
      let (inst, c, nl) := createSeriesInstance .candlestick .Candlestick
        s0.chart (some (baseOptions .candlestick)) none none s0.nextLegend
      { m := mapSet s0.m "candlestick" inst, chart := c, nextLegend := nl,
        counts := bumpCount s0.counts .candlestick }
    else s0
  let s2 := headers.foldl discoverStep s1
  (s2.m, s2.chart, s2.nextLegend)

/-! ## The series manager state and resynchronization -/

/-- A legend group container in the legends panel: the group symbol
text and the legend elements appended under it. -/
structure LegendGroup where
  symbol : String
  legends : List Nat
deriving DecidableEq, Repr

/-- A dropdown item handed to `ChartDropdown.update`: id, display
label, optional group (id and label). -/
structure ChartItem where
  id : String
  label : String
  group : Option (String × String)
deriving DecidableEq, Repr

/-- The state owned by a `SeriesManager` (and the DOM it manages): the
chart, the active instance map, the legends container, the dropdown
item list and the trade-event markers, plus the legend-element id
allocator. -/
structure ManagerState where
  chart : Chart
  seriesInstances : List (String × SeriesInstance)
  legendsDiv : List LegendGroup
  dropdownItems : List ChartItem
  markers : List Marker
  nextLegend : Nat

/-- A newly constructed `SeriesManager` on a given chart: no instances,
empty legends and dropdown. -/
def mkManager (chart : Chart) : ManagerState :=
  { chart := chart, seriesInstances := [], legendsDiv := [],
    dropdownItems := [], markers := [], nextLegend := 0 }

/-- `SeriesManager.cleanup`: remove every active instance's rendering
series from the chart, detach its legend element, and clear the
legends container. -/
def cleanup (st : ManagerState) : ManagerState :=
  { st with
    chart := st.seriesInstances.foldl (fun c p => c.removeSeriesC p.2.series) st.chart,
    legendsDiv := [] }

/-- The per-instance body of `SeriesManager.setSeriesData`: parse the
matching data for one instance (the conversion picked by its visual
kind) and store it.  A parse error is a thrown exception. -/
def setOneSeriesData (d : CSVData) (key : String) (inst : SeriesInstance) :
    Except String SeriesInstance :=
  match inst.seriesType with
  | .Candlestick => do
    let pts ← parseCandlestickData d
    .ok { inst with data := some (.candle pts) }
  | .Histogram => do
    let pts ← parseHistogramData d key
    .ok { inst with data := some (.hist pts) }
  | .Line => do
    let pts ← parseLineData d key
    .ok { inst with data := some (.line pts) }

/-- `SeriesManager.addTradeEventMarkers`: when the input has an event
column and a candlestick instance is active, derive and set the
trade-event markers. -/
def addTradeEventMarkersM (d : CSVData) (st : ManagerState) :
    ManagerState × Except String Unit :=
  if d.headers.contains "event" then
    match mapGet? st.seriesInstances "candlestick" with
    | none => (st, .ok ())
    | some _ =>
      match parseTradeEvents d with
      | .error e => (st, .error e)
      | .ok evts => ({ st with markers := createTradeEventMarkers evts }, .ok ())
  else (st, .ok ())

/-- `SeriesManager.setSeriesData`: walk the instance map in iteration
order, parsing and storing each instance's data, then derive the
trade-event markers.  A thrown parse error leaves the mutations made
so far in place. -/
def setSeriesData (d : CSVData) (st : ManagerState) :
    ManagerState × Except String Unit :=
  let rec go (done pending : List (String × SeriesInstance)) :
      List (String × SeriesInstance) × Except String Unit :=
    match pending with
    | [] => (done, .ok ())
    | (key, inst) :: rest =>
      match setOneSeriesData d key inst with
      | .error e => (done ++ (key, inst) :: rest, .error e)
      | .ok inst => go (done ++ [(key, inst)]) rest
  match go [] st.seriesInstances with
  | (m, .error e) => ({ st with seriesInstances := m }, .error e)
  | (m, .ok ()) => addTradeEventMarkersM d { st with seriesInstances := m }

/-- `instance.suffix || undefined`: an empty suffix is falsy and treated
as absent by `updateUI`. -/
def effectiveSuffix (s : Option String) : Option String :=
  match s with
  | some t => if t = "" then none else some t
  | none => none

/-- The dropdown item built by `updateUI` for one active instance. -/
def chartItemOf (key : String) (inst : SeriesInstance) : ChartItem :=
  let configLabel := labelOf inst.seriesSource
  let label :=
    match effectiveSuffix inst.suffix with
    | some s => configLabel ++ " " ++ s
    | none => configLabel
  let group :=
    (indicatorOf inst.seriesSource).map (fun ind =>
      match effectiveSuffix inst.suffix with
      | some s => (indicatorKeyStr ind ++ "_" ++ s, indicatorLabelStr ind ++ " " ++ s)
      | none => (indicatorKeyStr ind, indicatorLabelStr ind))
  { id := key, label := label, group := group }

/-- The `groupedSources` reduction of `updateUI`: bucket the legend
elements by indicator group (or bare source key), in first-seen order. -/
def addToLegendGroups (acc : List (String × List Nat)) (g : String) (e : Nat) :
    List (String × List Nat) :=
  if acc.any (fun p => p.1 == g) then
    acc.map (fun p => if p.1 == g then (p.1, p.2 ++ [e]) else p)
  else acc ++ [(g, [e])]

/-- `SeriesManager.updateUI`: rebuild the dropdown item list from the
active instances and append one legend group container per source
group, labelled with the upper-cased first two characters of the group
id. -/
def updateUI (st : ManagerState) : ManagerState :=
  let chartItems := st.seriesInstances.map (fun p => chartItemOf p.1 p.2)
  let grouped := st.seriesInstances.foldl
    (fun acc p => addToLegendGroups acc (groupOfSource p.2.seriesSource) p.2.legendElement)
    []
  { st with
    dropdownItems := chartItems,
    legendsDiv := st.legendsDiv ++ grouped.map (fun p =>
      { symbol := strToUpper (strTake p.1 2) ++ ":", legends := p.2 }) }

/-- `SeriesManager.updateAll(csvText)`, the resynchronization entry
point.  The boolean result is the success flag; an `Except.error`
outcome is an exception escaping `updateAll` (nothing in the sources
catches it), and the returned state is the state as mutated up to the
throw. -/
def updateAll (csvText : String) (st : ManagerState) :
    ManagerState × Except String Bool :=
  match parseCSV csvText with
  | .error e => (st, .error e)
  | .ok csvParser =>
    let (seriesInstances, chart, nextLegend) :=
      addSeriesFromCsv csvParser.headers st.chart st.nextLegend
    let st := { st with chart := chart, nextLegend := nextLegend }
    if seriesInstances.isEmpty then (st, .ok false)
    else
      let st := cleanup st
      let st := { st with seriesInstances := seriesInstances }
      match setSeriesData csvParser st with
      | (st, .error e) => (st, .error e)
      | (st, .ok ()) => (updateUI st, .ok true)

/-- `SeriesManager.toggleSeriesVisibility(key, visible)`: the optional
chaining makes a missing key a no-op. -/
def toggleSeriesVisibility (key : String) (visible : Bool) (st : ManagerState) :
    ManagerState :=
  match mapGet? st.seriesInstances key with
  | none => st
  | some inst => { st with chart := st.chart.applyVisible inst.series visible }

/-! ## Hierarchical filter checkbox logic (chart-dropdown) -/

/-- One member checkbox of a group (`input.sub-checkbox`): its series
id and its checked state, which mirrors membership of the id in the
dropdown's selection set. -/
structure SubCheckbox where
  id : String
  checked : Bool
deriving DecidableEq, Repr

/-- The group header checkbox (`input.group-checkbox`). -/
structure GroupCheckbox where
  checked : Bool
  indeterminate : Bool
deriving DecidableEq, Repr

/-- One group container of the dropdown: the header checkbox and the
member checkboxes, in DOM order. -/
structure GroupPanel where
  groupCheckbox : GroupCheckbox
  subs : List SubCheckbox
deriving DecidableEq, Repr

/-- The tri-state of a group checkbox. -/
inductive TriState
  | unchecked
  | checked
  | indeterminate
deriving DecidableEq, Repr

/-- The tri-state a group checkbox displays: the indeterminate flag
takes visual precedence over the checked flag. -/
def triStateOfBox (b : GroupCheckbox) : TriState :=
  if b.indeterminate then .indeterminate
  else if b.checked then .checked
  else .unchecked

/-- The tri-state derived from the member selection (the spec's derived
property): unchecked when zero members are selected, checked when all
are, indeterminate otherwise. -/
def derivedTriState (subs : List SubCheckbox) : TriState :=
  let checkedCount := subs.countP (fun s => s.checked)
  if checkedCount = 0 then .unchecked
  else if checkedCount = subs.length then .checked
  else .indeterminate

/-- `ChartDropdown.updateGroupCheckboxState`: recompute the group
checkbox from the counts of checked and total member checkboxes. -/
def updateGroupCheckboxState (g : GroupPanel) : GroupPanel :=
  let checkedCount := g.subs.countP (fun s => s.checked)
  let totalCount := g.subs.length
  if checkedCount = 0 then
    { g with groupCheckbox := { checked := false, indeterminate := false } }
  else if checkedCount = totalCount ∧ totalCount > 0 then
    { g with groupCheckbox := { checked := true, indeterminate := false } }
  else
    { g with groupCheckbox := { checked := false, indeterminate := true } }

/-- `ChartDropdown.handleSubCheckbox` for a member of this group: the
browser has set the member checkbox to `v`; the handler records the
selection change and recomputes the group checkbox. -/
def handleSubCheckbox (g : GroupPanel) (id : String) (v : Bool) : GroupPanel :=
  updateGroupCheckboxState
    { g with subs := g.subs.map (fun s => if s.id = id then { s with checked := v } else s) }

/-- `ChartDropdown.handleGroupCheckbox`: the browser has set the group
checkbox to `v`; the handler cascades `v` to every member checkbox
(recording each selection change) and clears the indeterminate flag. -/
def handleGroupCheckbox (g : GroupPanel) (v : Bool) : GroupPanel :=
  { groupCheckbox := { checked := v, indeterminate := false },
    subs := g.subs.map (fun s => { s with checked := v }) }

/-! ## Auxiliary definitions used by the verification -/

/-- An empty discovery-pass state over a fresh chart (used to
instantiate per-step statements). -/
def emptyPass : PassState :=
  { m := [], chart := initialChart, nextLegend := 0, counts := initialCounts }

/-- The pane-assignment invariant of one discovery pass: every recorded
handle is live (below the allocator), every instance of a source that
does not route through `getPaneIndex` sits on the main pane, and
instances of one group share one pane. -/
def PaneInv (m : List (String × SeriesInstance)) (c : Chart) : Prop :=
  (∀ p ∈ m, p.2.series < c.nextHandle) ∧
  (∀ p ∈ m, isOwnPane p.2.seriesSource = false → c.paneOf p.2.series = 0) ∧
  (∀ p ∈ m, ∀ q ∈ m,
    groupOfSource p.2.seriesSource = groupOfSource q.2.seriesSource →
    c.paneOf p.2.series = c.paneOf q.2.series)

/-! ## General lemmas about the embedding -/

theorem tradeEventStep_append (acc : List Marker) (e : TradeEvent) :
    tradeEventStep acc e = acc ++ tradeEventStep [] e := by
  unfold tradeEventStep
  by_cases h1 : strContains e.event "LongEntry" = true <;>
    by_cases h2 : strContains e.event "ShortEntry" = true <;>
      by_cases h3 : strContains e.event "LongExit" = true <;>
        by_cases h4 : strContains e.event "ShortExit" = true <;>
          simp [h1, h2, h3, h4]

theorem foldl_tradeEventStep (evts : List TradeEvent) (acc : List Marker) :
    evts.foldl tradeEventStep acc = acc ++ evts.foldl tradeEventStep [] := by
  induction evts generalizing acc with
  | nil => simp
  | cons e rest ih =>
    simp only [List.foldl_cons]
    rw [ih (tradeEventStep acc e), tradeEventStep_append, List.append_assoc,
      ← ih (tradeEventStep [] e)]

/-! ## Claim theorems -/

/-- C9: for every list of trade events, the derived markers are exactly
one marker per matching substring per event, in event order: a label
containing "LongEntry" yields a below-bar up marker, "ShortEntry" an
above-bar down marker, "LongExit" a below-bar neutral marker and
"ShortExit" an above-bar neutral marker; several matching substrings in
one label all emit their markers. -/
theorem claim_C9 (tradeEvents : List TradeEvent) :
    createTradeEventMarkers tradeEvents =
      tradeEvents.flatMap (fun e =>
        (if strContains e.event "LongEntry" = true then
          [{ time := e.time, position := "belowBar", color := "#2196F3",
             shape := "arrowUp", text := "Long" }] else []) ++
        (if strContains e.event "ShortEntry" = true then
          [{ time := e.time, position := "aboveBar", color := "#FF5733",
             shape := "arrowDown", text := "Short" }] else []) ++
        (if strContains e.event "LongExit" = true then
          [{ time := e.time, position := "belowBar", color := "#2196F3",
             shape := "circle", text := "  " }] else []) ++
        (if strContains e.event "ShortExit" = true then
          [{ time := e.time, position := "aboveBar", color := "#FF5733",
             shape := "square", text := "  " }] else [])) := by
  induction tradeEvents with
  | nil => rfl
  | cons e rest ih =>
    unfold createTradeEventMarkers at ih ⊢
    simp only [List.foldl_cons, List.flatMap_cons, ← ih]
    rw [foldl_tradeEventStep]
    congr 1
    unfold tradeEventStep
    by_cases h1 : strContains e.event "LongEntry" = true <;>
      by_cases h2 : strContains e.event "ShortEntry" = true <;>
        by_cases h3 : strContains e.event "LongExit" = true <;>
          by_cases h4 : strContains e.event "ShortExit" = true <;>
            simp [h1, h2, h3, h4]

/-- C10: toggling visibility for a key that is not in the active
instance map is a total no-op on the series manager and the chart. -/
theorem claim_C10 (key : String) (visible : Bool) (st : ManagerState)
    (h : mapGet? st.seriesInstances key = none) :
    toggleSeriesVisibility key visible st = st := by
  unfold toggleSeriesVisibility
  rw [h]

theorem claim_C10_witness :
    mapGet? (mkManager initialChart).seriesInstances "bb_upper_20" = none ∧
    toggleSeriesVisibility "bb_upper_20" false (mkManager initialChart) =
      mkManager initialChart :=
  ⟨rfl, claim_C10 "bb_upper_20" false (mkManager initialChart) rfl⟩

theorem updateGroupCheckboxState_subs (g : GroupPanel) :
    (updateGroupCheckboxState g).subs = g.subs := by
  unfold updateGroupCheckboxState
  dsimp only
  split_ifs <;> rfl

theorem updateGroupCheckboxState_matches (g : GroupPanel) (h : g.subs ≠ []) :
    triStateOfBox (updateGroupCheckboxState g).groupCheckbox
      = derivedTriState (updateGroupCheckboxState g).subs := by
  have hlen : 0 < g.subs.length := List.length_pos.mpr h
  rw [updateGroupCheckboxState_subs]
  by_cases hc : g.subs.countP (fun s => s.checked) = 0
  · have hupd : updateGroupCheckboxState g
        = { g with groupCheckbox := { checked := false, indeterminate := false } } := by
      unfold updateGroupCheckboxState
      dsimp only
      rw [if_pos hc]
    rw [hupd]
    simp [triStateOfBox, derivedTriState, hc]
  · by_cases he : g.subs.countP (fun s => s.checked) = g.subs.length
    · have hupd : updateGroupCheckboxState g
          = { g with groupCheckbox := { checked := true, indeterminate := false } } := by
        unfold updateGroupCheckboxState
        dsimp only
        rw [if_neg hc, if_pos ⟨he, hlen⟩]
      rw [hupd]
      simp [triStateOfBox, derivedTriState, hc, he, h]
    · have hupd : updateGroupCheckboxState g
          = { g with groupCheckbox := { checked := false, indeterminate := true } } := by
        unfold updateGroupCheckboxState
        dsimp only
        rw [if_neg hc, if_neg (fun hh => he hh.1)]
      rw [hupd]
      simp [triStateOfBox, derivedTriState, hc, he]

/-- C7: after a member-checkbox toggle or a group-checkbox toggle of a
(nonempty) group, the group checkbox shows exactly the tri-state
derived from the members (unchecked when zero are selected, checked
when all are, indeterminate otherwise); the group toggle cascades its
value to every member and clears the indeterminate flag. -/
theorem claim_C7 (g : GroupPanel) (id : String) (v : Bool) (h : g.subs ≠ []) :
    triStateOfBox (handleSubCheckbox g id v).groupCheckbox
      = derivedTriState (handleSubCheckbox g id v).subs ∧
    triStateOfBox (handleGroupCheckbox g v).groupCheckbox
      = derivedTriState (handleGroupCheckbox g v).subs ∧
    (handleGroupCheckbox g v).subs
      = g.subs.map (fun s => { s with checked := v }) ∧
    (handleGroupCheckbox g v).groupCheckbox.indeterminate = false := by
  refine ⟨?_, ?_, rfl, rfl⟩
  · apply updateGroupCheckboxState_matches
    simpa using h
  · have hlen : g.subs.length ≠ 0 := fun hh => h (List.length_eq_zero.mp hh)
    unfold handleGroupCheckbox derivedTriState triStateOfBox
    dsimp only
    cases v
    · have hcp : (g.subs.map (fun s => { s with checked := false })).countP
          (fun s => s.checked) = 0 := by
        simp [List.countP_map, Function.comp_def]
      simp [hcp]
    · have hcp : (g.subs.map (fun s => { s with checked := true })).countP
          (fun s => s.checked)
          = (g.subs.map (fun s => ({ s with checked := true } : SubCheckbox))).length := by
        simp [List.countP_map, Function.comp_def]
      simp [hcp, hlen]

theorem claim_C7_witness :
    ((⟨⟨false, false⟩, [⟨"a", true⟩, ⟨"b", false⟩]⟩ : GroupPanel).subs ≠ []) ∧
    (triStateOfBox (handleSubCheckbox ⟨⟨false, false⟩, [⟨"a", true⟩, ⟨"b", false⟩]⟩ "a" false).groupCheckbox
        = derivedTriState (handleSubCheckbox ⟨⟨false, false⟩, [⟨"a", true⟩, ⟨"b", false⟩]⟩ "a" false).subs ∧
      triStateOfBox (handleGroupCheckbox ⟨⟨false, false⟩, [⟨"a", true⟩, ⟨"b", false⟩]⟩ false).groupCheckbox
        = derivedTriState (handleGroupCheckbox ⟨⟨false, false⟩, [⟨"a", true⟩, ⟨"b", false⟩]⟩ false).subs ∧
      (handleGroupCheckbox ⟨⟨false, false⟩, [⟨"a", true⟩, ⟨"b", false⟩]⟩ false).subs
        = [(⟨"a", true⟩ : SubCheckbox), ⟨"b", false⟩].map (fun s => { s with checked := false }) ∧
      (handleGroupCheckbox ⟨⟨false, false⟩, [⟨"a", true⟩, ⟨"b", false⟩]⟩ false).groupCheckbox.indeterminate
        = false) :=
  ⟨by decide, claim_C7 ⟨⟨false, false⟩, [⟨"a", true⟩, ⟨"b", false⟩]⟩ "a" false (by decide)⟩

theorem discoverStep_counts (st : PassState) (header : String) (src : SeriesSource) :
    (discoverStep st header).counts src
      = st.counts src + (if matchSource header = some src then 1 else 0) := by
  unfold discoverStep
  cases e : matchSource header with
  | none => simp
  | some t =>
    have hb : bumpCount st.counts t src = st.counts src + (if t = src then 1 else 0) := by
      unfold bumpCount
      by_cases hs : src = t
      · subst hs
        simp
      · rw [if_neg hs, if_neg (fun hh => hs hh.symm), Nat.add_zero]
    dsimp only
    split_ifs <;> (dsimp only; rw [hb]; simp_all [Option.some.injEq])

theorem foldl_discover_counts (headers : List String) (st : PassState) (src : SeriesSource) :
    (headers.foldl discoverStep st).counts src
      = st.counts src + headers.countP (fun h => decide (matchSource h = some src)) := by
  induction headers generalizing st with
  | nil => simp
  | cons hd tl ih =>
    simp only [List.foldl_cons, List.countP_cons]
    rw [ih, discoverStep_counts]
    by_cases hm : matchSource hd = some src
    · simp only [hm, if_pos rfl, decide_eq_true_eq, if_true]
      omega
    · simp [hm]

/-- C2 counterexample: the claim asserts palette entry `N mod length`
for the Nth occurrence; in the code the fourth occurrence (N = 3) of
`bb_upper` gets an undefined colour instead of wrapping to the first
palette entry, both at the `getSourceOptions` level and for the chart
series actually created in a pass over four `bb_upper` columns. -/
theorem claim_C2_counterexample :
    (getSourceOptions .bb_upper 3).color = none ∧
    bbUlPalette.get? (3 % bbUlPalette.length) = some "#87312b" ∧
    (getSourceOptions .bb_upper 3).color ≠ bbUlPalette.get? (3 % bbUlPalette.length) ∧
    ((addSeriesFromCsv ["bb_upper_a", "bb_upper_b", "bb_upper_c", "bb_upper_d"]
        initialChart 0).2.1.series 3).map (fun s => s.options.color) = some none :=
  ⟨rfl, rfl, by decide, rfl⟩

/-- C2 (amended): the Nth occurrence (0-based, in encounter order) of a
Bollinger/Donchian band key is assigned palette entry `N` directly,
with no modulo wrap: the per-pass occurrence counter equals the number
of previously encountered columns matching that key, the colour is the
palette entry at that index, each three-entry palette row has pairwise
distinct colours (so the first three occurrences are distinct, in
encounter order), and an occurrence past the palette end receives an
undefined colour, as the four-column end-to-end pass shows. -/
theorem claim_C2_amended :
    (∀ (source : SeriesSource) (num : Nat), isBandKey source = true →
      (getSourceOptions source num).color = (paletteOf source).get? num) ∧
    (∀ (headers : List String) (st : PassState) (src : SeriesSource),
      (headers.foldl discoverStep st).counts src
        = st.counts src + headers.countP (fun h => decide (matchSource h = some src))) ∧
    (bbUlPalette.length = 3 ∧ bbUlPalette.Nodup ∧
      bbMPalette.length = 3 ∧ bbMPalette.Nodup ∧
      dcUlPalette.length = 3 ∧ dcUlPalette.Nodup ∧
      dcMPalette.length = 3 ∧ dcMPalette.Nodup) ∧
    (((addSeriesFromCsv ["bb_upper_a", "bb_upper_b", "bb_upper_c", "bb_upper_d"]
        initialChart 0).2.1.series 0).map (fun s => s.options.color)
          = some (some "#87312b") ∧
      ((addSeriesFromCsv ["bb_upper_a", "bb_upper_b", "bb_upper_c", "bb_upper_d"]
        initialChart 0).2.1.series 1).map (fun s => s.options.color)
          = some (some "#c22929") ∧
      ((addSeriesFromCsv ["bb_upper_a", "bb_upper_b", "bb_upper_c", "bb_upper_d"]
        initialChart 0).2.1.series 2).map (fun s => s.options.color)
          = some (some "#dc7369") ∧
      ((addSeriesFromCsv ["bb_upper_a", "bb_upper_b", "bb_upper_c", "bb_upper_d"]
        initialChart 0).2.1.series 3).map (fun s => s.options.color)
          = some none) := by
  refine ⟨?_, foldl_discover_counts, by decide, rfl, rfl, rfl, rfl⟩
  intro source num hb
  cases source <;> first | rfl | exact absurd hb (by decide)

theorem claim_C2_witness :
    isBandKey SeriesSource.dc_middle = true ∧
    (getSourceOptions SeriesSource.dc_middle 1).color
      = (paletteOf SeriesSource.dc_middle).get? 1 :=
  ⟨by decide, claim_C2_amended.1 SeriesSource.dc_middle 1 (by decide)⟩

theorem createSeriesInstance_pane (seriesSource : SeriesSource) (ty : SeriesType)
    (c : Chart) (opts : Option SeriesOptions) (paneIndex : Option Nat)
    (suffix : Option String) (nl : Nat) :
    (createSeriesInstance seriesSource ty c opts paneIndex suffix nl).2.1.paneOf
      (createSeriesInstance seriesSource ty c opts paneIndex suffix nl).1.series =
    (match ty with
      | .Line => paneIndex.getD 0
      | _ => 0) := by
  cases ty
  · simp [createSeriesInstance, addCandlestickSeries, Chart.addSeriesC, Chart.paneOf]
  · simp [createSeriesInstance, addHistogramSeries, Chart.addSeriesC, Chart.paneOf]
  · cases paneIndex with
    | none => simp [createSeriesInstance, addLineSeries, Chart.addSeriesC, Chart.paneOf]
    | some p =>
      by_cases hp : p = 0
      · simp [createSeriesInstance, addLineSeries, Chart.addSeriesC, Chart.paneOf, hp]
      · simp [createSeriesInstance, addLineSeries, Chart.addSeriesC, Chart.movePane,
          Chart.paneOf, hp]

/-- C8 counterexample: the claim quantifies over every visual kind, but
a histogram creation through the series factory with pane index 2
leaves the created series on the main pane (`createSeriesInstance`
does not forward the pane index to `addHistogramSeries`). -/
theorem claim_C8_counterexample :
    (createSeriesInstance .volume .Histogram initialChart (some (baseOptions .volume))
        (some 2) none 0).2.1.paneOf
      (createSeriesInstance .volume .Histogram initialChart (some (baseOptions .volume))
        (some 2) none 0).1.series = 0 ∧
    (createSeriesInstance .volume .Histogram initialChart (some (baseOptions .volume))
        (some 2) none 0).2.1.paneOf
      (createSeriesInstance .volume .Histogram initialChart (some (baseOptions .volume))
        (some 2) none 0).1.series ≠ 2 :=
  ⟨rfl, by decide⟩

/-- C8 (amended): the factory honours the pane index only for the Line
kind: a line series ends on pane `paneIndex` when that is given and
non-zero and on the main pane (0) when it is omitted or zero, while
candlestick and histogram creations ignore the pane index argument and
always stay on the main pane at creation. -/
theorem claim_C8_amended (seriesSource : SeriesSource) (seriesType : SeriesType)
    (c : Chart) (seriesOptions : Option SeriesOptions) (paneIndex : Option Nat)
    (suffix : Option String) (nextLegend : Nat) :
    (createSeriesInstance seriesSource seriesType c seriesOptions paneIndex suffix
        nextLegend).2.1.paneOf
      (createSeriesInstance seriesSource seriesType c seriesOptions paneIndex suffix
        nextLegend).1.series =
    (match seriesType with
      | .Line => paneIndex.getD 0
      | _ => 0) :=
  createSeriesInstance_pane seriesSource seriesType c seriesOptions paneIndex suffix
    nextLegend

/-- C5 counterexample: on empty input text the resynchronization does
not return a failure flag: the CSV parser's exception escapes
`updateAll` (modelled as the error outcome). -/
theorem claim_C5_counterexample :
    (updateAll "" (mkManager initialChart)).2 = .error "CSV text cannot be empty." ∧
    ∀ b : Bool, (updateAll "" (mkManager initialChart)).2 ≠ .ok b := by
  refine ⟨rfl, ?_⟩
  intro b hb
  rw [show (updateAll "" (mkManager initialChart)).2
      = Except.error "CSV text cannot be empty." from rfl] at hb
  exact Except.noConfusion hb

/-- C5 (amended): for inputs decoding to zero usable rows (empty text,
or a header with no data rows) `updateAll` does not return a boolean at
all: the parser's thrown error escapes it uncaught (nothing in the
sources catches it; surfacing is left to the host), and the prior
manager state is fully preserved because the throw happens before any
teardown. -/
theorem claim_C5_amended (csvText : String) (st : ManagerState)
    (h : strTrim csvText = "" ∨ (strSplitChar (strTrim csvText) '\n').length < 2) :
    updateAll csvText st =
      (st, .error (if strTrim csvText = "" then "CSV text cannot be empty."
        else "CSV must contain a header row and at least one data row.")) := by
  by_cases he : strTrim csvText = ""
  · have hp : parseCSV csvText = .error "CSV text cannot be empty." := by
      unfold parseCSV
      rw [if_pos he]
    unfold updateAll
    rw [hp, if_pos he]
  · have hrows : (strSplitChar (strTrim csvText) '\n').length < 2 := h.resolve_left he
    have hp : parseCSV csvText
        = .error "CSV must contain a header row and at least one data row." := by
      unfold parseCSV
      rw [if_neg he, if_pos hrows]
    unfold updateAll
    rw [hp, if_neg he]

theorem claim_C5_witness :
    ((strSplitChar (strTrim "time,open") '\n').length < 2) ∧
    updateAll "time,open" (mkManager initialChart) =
      (mkManager initialChart,
        .error (if strTrim "time,open" = "" then "CSV text cannot be empty."
          else "CSV must contain a header row and at least one data row.")) :=
  ⟨by decide, claim_C5_amended "time,open" (mkManager initialChart) (Or.inr (by decide))⟩

theorem find?_eq_some_split {α : Type} (p : α → Bool) (l : List α) (a : α)
    (h : l.find? p = some a) :
    ∃ l1 l2, l = l1 ++ a :: l2 ∧ (∀ b ∈ l1, p b = false) ∧ p a = true := by
  induction l with
  | nil => simp [List.find?] at h
  | cons x xs ih =>
    by_cases hx : p x = true
    · rw [List.find?_cons_of_pos _ hx] at h
      obtain rfl : x = a := Option.some.inj h
      exact ⟨[], xs, rfl, by simp, hx⟩
    · rw [List.find?_cons_of_neg _ hx] at h
      obtain ⟨l1, l2, rfl, hl1, hpa⟩ := ih h
      refine ⟨x :: l1, l2, rfl, ?_, hpa⟩
      intro b hb
      rcases List.mem_cons.mp hb with rfl | hb
      · simpa using hx
      · exact hl1 b hb

theorem createSeriesInstance_spec (seriesSource : SeriesSource) (ty : SeriesType)
    (c : Chart) (opts : Option SeriesOptions) (paneIndex : Option Nat)
    (suffix : Option String) (nl : Nat) :
    (createSeriesInstance seriesSource ty c opts paneIndex suffix nl).1.suffix = suffix ∧
    (createSeriesInstance seriesSource ty c opts paneIndex suffix nl).1.seriesSource
      = seriesSource ∧
    (createSeriesInstance seriesSource ty c opts paneIndex suffix nl).1.seriesType = ty ∧
    (createSeriesInstance seriesSource ty c opts paneIndex suffix nl).1.series
      = c.nextHandle ∧
    (createSeriesInstance seriesSource ty c opts paneIndex suffix nl).2.1.nextHandle
      = c.nextHandle + 1 ∧
    (createSeriesInstance seriesSource ty c opts paneIndex suffix nl).2.2 = nl + 1 := by
  cases ty <;> cases paneIndex <;>
    simp [createSeriesInstance, addCandlestickSeries, addHistogramSeries, addLineSeries,
      Chart.addSeriesC, Chart.movePane] <;>
    split_ifs <;>
    simp [Chart.movePane]

/-- C4: discovery matches a column name by testing whether it starts
with a source key, taking the first matching key in registry
declaration order; a column matching no key leaves the pass state
untouched; a matched column stores its instance under the raw column
name with suffix the remainder of the column name after the matched
key. -/
theorem claim_C4 (header : String) (matchingSource : SeriesSource) (st : PassState) :
    (matchSource header = none →
      discoverStep st header = st ∧
      ∀ s : SeriesSource, strStartsWith header (keyStr s) = false) ∧
    (matchSource header = some matchingSource →
      strStartsWith header (keyStr matchingSource) = true ∧
      (∃ keysBefore keysAfter,
        sourceKeysInOrder = keysBefore ++ matchingSource :: keysAfter ∧
        ∀ s ∈ keysBefore, strStartsWith header (keyStr s) = false) ∧
      ∃ inst, (discoverStep st header).m = mapSet st.m header inst ∧
        inst.seriesSource = matchingSource ∧
        inst.suffix = some (strDrop header (keyStr matchingSource).length)) := by
  constructor
  · intro hn
    have hn' : sourceKeysInOrder.find? (fun s => strStartsWith header (keyStr s))
        = none := hn
    refine ⟨by unfold discoverStep; rw [hn], ?_⟩
    intro s
    have hmem : s ∈ sourceKeysInOrder := by cases s <;> decide
    simpa using List.find?_eq_none.mp hn' s hmem
  · intro hs
    have hs' : sourceKeysInOrder.find? (fun s => strStartsWith header (keyStr s))
        = some matchingSource := hs
    obtain ⟨l1, l2, hdec, hbef, hpa⟩ :=
      find?_eq_some_split (fun s => strStartsWith header (keyStr s))
        sourceKeysInOrder matchingSource hs'
    refine ⟨hpa, ⟨l1, l2, hdec, hbef⟩, ?_⟩
    unfold discoverStep
    rw [hs]
    dsimp only
    split_ifs <;>
      exact ⟨_, rfl, (createSeriesInstance_spec _ _ _ _ _ _ _).2.1,
        (createSeriesInstance_spec _ _ _ _ _ _ _).1⟩

theorem claim_C4_witness :
    (matchSource "bb_upper_20" = some SeriesSource.bb_upper) ∧
    (strStartsWith "bb_upper_20" (keyStr SeriesSource.bb_upper) = true ∧
      (∃ keysBefore keysAfter,
        sourceKeysInOrder = keysBefore ++ SeriesSource.bb_upper :: keysAfter ∧
        ∀ s ∈ keysBefore, strStartsWith "bb_upper_20" (keyStr s) = false) ∧
      ∃ inst, (discoverStep emptyPass "bb_upper_20").m
          = mapSet emptyPass.m "bb_upper_20" inst ∧
        inst.seriesSource = SeriesSource.bb_upper ∧
        inst.suffix = some (strDrop "bb_upper_20" (keyStr SeriesSource.bb_upper).length)) :=
  ⟨by decide, (claim_C4 "bb_upper_20" SeriesSource.bb_upper emptyPass).2 (by decide)⟩

theorem mapSet_ne_nil (m : List (String × SeriesInstance)) (k : String)
    (v : SeriesInstance) : mapSet m k v ≠ [] := by
  unfold mapSet
  split_ifs with h
  · intro he
    rw [List.map_eq_nil_iff] at he
    subst he
    simp at h
  · simp

theorem discoverStep_m_nil (st : PassState) (header : String)
    (h : (discoverStep st header).m = []) :
    st.m = [] ∧ discoverStep st header = st := by
  cases e : matchSource header with
  | none =>
    have hstep : discoverStep st header = st := by
      unfold discoverStep
      rw [e]
    rw [hstep] at h
    exact ⟨h, hstep⟩
  | some t =>
    exfalso
    have hm : (discoverStep st header).m ≠ [] := by
      unfold discoverStep
      rw [e]
      dsimp only
      split_ifs <;> exact mapSet_ne_nil _ _ _
    exact hm h

theorem foldl_discover_nil (headers : List String) (st : PassState)
    (h : (headers.foldl discoverStep st).m = []) :
    headers.foldl discoverStep st = st ∧ st.m = [] := by
  induction headers generalizing st with
  | nil => exact ⟨rfl, h⟩
  | cons hd tl ih =>
    rw [List.foldl_cons] at h ⊢
    obtain ⟨heq, hm⟩ := ih (discoverStep st hd) h
    obtain ⟨hm0, hstep⟩ := discoverStep_m_nil st hd hm
    rw [hstep] at heq ⊢
    exact ⟨heq, hm0⟩

theorem addSeriesFromCsv_nil (headers : List String) (chart : Chart) (nl : Nat)
    (h : (addSeriesFromCsv headers chart nl).1 = []) :
    addSeriesFromCsv headers chart nl = ([], chart, nl) := by
  by_cases ho : allOhlcPresent headers = true
  · exfalso
    unfold addSeriesFromCsv at h
    dsimp only at h
    rw [if_pos ho] at h
    obtain ⟨-, hm⟩ := foldl_discover_nil headers _ h
    dsimp only at hm
    exact mapSet_ne_nil _ _ _ hm
  · unfold addSeriesFromCsv at h ⊢
    dsimp only at h ⊢
    rw [if_neg ho] at h ⊢
    obtain ⟨heq, -⟩ := foldl_discover_nil headers _ h
    rw [heq]

/-- C1: when discovery yields zero instances, `updateAll` returns
`false` and the manager state — the active instance set, the chart and
its series, the legend elements, the legends container, the dropdown
item list and the markers — is exactly the state before the call. -/
theorem claim_C1 (csvText : String) (st : ManagerState) (d : CSVData)
    (hparse : parseCSV csvText = .ok d)
    (hzero : (addSeriesFromCsv d.headers st.chart st.nextLegend).1 = []) :
    updateAll csvText st = (st, .ok false) := by
  unfold updateAll
  rw [hparse]
  dsimp only
  rw [addSeriesFromCsv_nil d.headers st.chart st.nextLegend hzero]
  rfl

theorem claim_C1_witness :
    parseCSV "time,foo\n1,2"
      = .ok { headers := ["time", "foo"], data := [[("time", "1"), ("foo", "2")]] } ∧
    (addSeriesFromCsv ["time", "foo"] (mkManager initialChart).chart
      (mkManager initialChart).nextLegend).1 = [] ∧
    updateAll "time,foo\n1,2" (mkManager initialChart) = (mkManager initialChart, .ok false) :=
  ⟨rfl, by decide,
    claim_C1 "time,foo\n1,2" (mkManager initialChart)
      { headers := ["time", "foo"], data := [[("time", "1"), ("foo", "2")]] }
      rfl (by decide)⟩

theorem find?_map_overwrite (m : List (String × SeriesInstance)) (k k' : String)
    (v : SeriesInstance) (h : k' ≠ k) :
    (m.map (fun p => if p.1 == k then (k, v) else p)).find? (fun p => p.1 == k')
      = m.find? (fun p => p.1 == k') := by
  have hkk : (k == k') = false := by
    simp only [beq_eq_false_iff_ne]
    exact fun hh => h hh.symm
  induction m with
  | nil => rfl
  | cons p rest ih =>
    by_cases hk : p.1 = k
    · have h1 : (if p.1 == k then (k, v) else p) = (k, v) := by simp [hk]
      simp only [List.map_cons, h1]
      rw [List.find?_cons_of_neg _ (by simp [hkk]),
        List.find?_cons_of_neg _ (by simp [hk, hkk]), ih]
    · have h1 : (if p.1 == k then (k, v) else p) = p := by simp [hk]
      simp only [List.map_cons, h1]
      by_cases hk' : p.1 = k'
      · rw [List.find?_cons_of_pos _ (by simp [hk']),
          List.find?_cons_of_pos _ (by simp [hk'])]
      · rw [List.find?_cons_of_neg _ (by simp [hk']),
          List.find?_cons_of_neg _ (by simp [hk']), ih]

theorem mapGet?_mapSet_ne (m : List (String × SeriesInstance)) (k k' : String)
    (v : SeriesInstance) (h : k' ≠ k) :
    mapGet? (mapSet m k v) k' = mapGet? m k' := by
  have hkk : (k == k') = false := by
    simp only [beq_eq_false_iff_ne]
    exact fun hh => h hh.symm
  unfold mapGet? mapSet
  split_ifs with ha
  · rw [find?_map_overwrite m k k' v h]
  · rw [List.find?_append]
    have h2 : [(k, v)].find? (fun p => p.1 == k') = none := by
      simp [List.find?, hkk]
    rw [h2]
    cases m.find? (fun p => p.1 == k') <;> rfl

theorem mapGet?_mapSet_self (m : List (String × SeriesInstance)) (k : String)
    (v : SeriesInstance) : mapGet? (mapSet m k v) k = some v := by
  unfold mapGet? mapSet
  split_ifs with ha
  · induction m with
    | nil => simp at ha
    | cons p rest ih =>
      by_cases hk : p.1 = k
      · have h1 : (if p.1 == k then (k, v) else p) = (k, v) := by simp [hk]
        simp only [List.map_cons, h1]
        rw [List.find?_cons_of_pos _ (by simp)]
        rfl
      · have h1 : (if p.1 == k then (k, v) else p) = p := by simp [hk]
        have ha' : rest.any (fun p => p.1 == k) = true := by
          rcases List.any_eq_true.mp ha with ⟨q, hq, hqk⟩
          rcases List.mem_cons.mp hq with rfl | hq'
          · exact absurd (by simpa using hqk) hk
          · exact List.any_eq_true.mpr ⟨q, hq', hqk⟩
        simp only [List.map_cons, h1]
        rw [List.find?_cons_of_neg _ (by simp [hk]), ih ha']
  · rw [List.find?_append]
    have h1 : m.find? (fun p => p.1 == k) = none := by
      rw [List.find?_eq_none]
      intro p hp hpk
      exact ha (List.any_eq_true.mpr ⟨p, hp, hpk⟩)
    rw [h1]
    simp [List.find?]

theorem discoverStep_insert (st : PassState) (header : String) (t : SeriesSource)
    (e : matchSource header = some t) :
    ∃ inst, (discoverStep st header).m = mapSet st.m header inst ∧
      inst.seriesSource = t ∧ inst.seriesType = seriesTypeOf t ∧
      inst.suffix = some (strDrop header (keyStr t).length) ∧
      inst.series = st.chart.nextHandle := by
  unfold discoverStep
  rw [e]
  dsimp only
  split_ifs <;>
    exact ⟨_, rfl, (createSeriesInstance_spec _ _ _ _ _ _ _).2.1,
      (createSeriesInstance_spec _ _ _ _ _ _ _).2.2.1,
      (createSeriesInstance_spec _ _ _ _ _ _ _).1,
      (createSeriesInstance_spec _ _ _ _ _ _ _).2.2.2.1⟩

theorem discoverStep_candle (st : PassState) (header : String)
    (hex : ∃ inst, mapGet? st.m "candlestick" = some inst ∧
      inst.seriesSource = SeriesSource.candlestick ∧
      inst.seriesType = SeriesType.Candlestick) :
    ∃ inst, mapGet? (discoverStep st header).m "candlestick" = some inst ∧
      inst.seriesSource = SeriesSource.candlestick ∧
      inst.seriesType = SeriesType.Candlestick := by
  cases e : matchSource header with
  | none =>
    have hstep : discoverStep st header = st := by
      unfold discoverStep
      rw [e]
    rw [hstep]
    exact hex
  | some t =>
    obtain ⟨inst, hm, hsrc, hty, -, -⟩ := discoverStep_insert st header t e
    rw [hm]
    by_cases hh : header = "candlestick"
    · subst hh
      have h0 : matchSource "candlestick" = some SeriesSource.candlestick := by decide
      rw [h0] at e
      obtain rfl := Option.some.inj e
      exact ⟨inst, mapGet?_mapSet_self _ _ _, hsrc, hty⟩
    · obtain ⟨inst0, hget, hsrc0, hty0⟩ := hex
      rw [mapGet?_mapSet_ne _ _ _ _ (fun hc => hh hc.symm)]
      exact ⟨inst0, hget, hsrc0, hty0⟩

theorem foldl_discover_candle (headers : List String) (st : PassState)
    (hex : ∃ inst, mapGet? st.m "candlestick" = some inst ∧
      inst.seriesSource = SeriesSource.candlestick ∧
      inst.seriesType = SeriesType.Candlestick) :
    ∃ inst, mapGet? (headers.foldl discoverStep st).m "candlestick" = some inst ∧
      inst.seriesSource = SeriesSource.candlestick ∧
      inst.seriesType = SeriesType.Candlestick := by
  induction headers generalizing st with
  | nil => exact hex
  | cons hd tl ih => exact ih (discoverStep st hd) (discoverStep_candle st hd hex)

theorem foldl_discover_candle_rev (headers : List String) (st : PassState)
    (h : mapGet? (headers.foldl discoverStep st).m "candlestick" ≠ none) :
    mapGet? st.m "candlestick" ≠ none ∨ "candlestick" ∈ headers := by
  induction headers generalizing st with
  | nil => exact Or.inl h
  | cons hd tl ih =>
    rcases ih (discoverStep st hd) h with h1 | h2
    · cases e : matchSource hd with
      | none =>
        have hstep : discoverStep st hd = st := by
          unfold discoverStep
          rw [e]
        rw [hstep] at h1
        exact Or.inl h1
      | some t =>
        obtain ⟨inst, hm, -, -, -, -⟩ := discoverStep_insert st hd t e
        rw [hm] at h1
        by_cases hh : hd = "candlestick"
        · exact Or.inr (by rw [hh]; exact List.mem_cons_self _ _)
        · rw [mapGet?_mapSet_ne _ _ _ _ (fun hc => hh hc.symm)] at h1
          exact Or.inl h1
    · exact Or.inr (List.mem_cons_of_mem _ h2)

/-- C6 counterexample to "exactly when": a table with no price-bar
columns but a column literally named `candlestick` still produces a
Candlestick instance under the reserved key, because the column name
matches the `candlestick` source key in the header loop. -/
theorem claim_C6_counterexample :
    (∃ inst, mapGet? (addSeriesFromCsv ["time", "candlestick"] initialChart 0).1
        "candlestick" = some inst ∧ inst.seriesType = SeriesType.Candlestick) ∧
    allOhlcPresent ["time", "candlestick"] = false :=
  ⟨⟨{ suffix := some "", seriesSource := .candlestick, seriesType := .Candlestick,
      series := 0, data := none, legendElement := 0 }, by decide, rfl⟩, by decide⟩

/-- C6 (amended): when all four price-bar columns are present a
Candlestick instance is built under the reserved key; conversely the
reserved key is occupied only if the four columns are present or a
column named exactly `candlestick` occurs.  End-to-end, the input
`time,open,high,low,close,volume` resynchronizes successfully with
exactly the price-bar and volume instances, both ungrouped in the
filter. -/
theorem claim_C6_amended :
    (∀ (headers : List String) (chart : Chart) (nl : Nat),
      allOhlcPresent headers = true →
      ∃ inst, mapGet? (addSeriesFromCsv headers chart nl).1 "candlestick" = some inst ∧
        inst.seriesSource = SeriesSource.candlestick ∧
        inst.seriesType = SeriesType.Candlestick) ∧
    (∀ (headers : List String) (chart : Chart) (nl : Nat),
      mapGet? (addSeriesFromCsv headers chart nl).1 "candlestick" ≠ none →
      allOhlcPresent headers = true ∨ "candlestick" ∈ headers) ∧
    (updateAll "time,open,high,low,close,volume\n1,2,3,4,5,6"
      (mkManager initialChart)).2 = .ok true ∧
    ((updateAll "time,open,high,low,close,volume\n1,2,3,4,5,6"
      (mkManager initialChart)).1.seriesInstances.map (fun p => p.1))
      = ["candlestick", "volume"] ∧
    (updateAll "time,open,high,low,close,volume\n1,2,3,4,5,6"
      (mkManager initialChart)).1.dropdownItems
      = [{ id := "candlestick", label := "Candlestick", group := none },
         { id := "volume", label := "Volume", group := none }] := by
  refine ⟨?_, ?_, rfl, rfl, rfl⟩
  · intro headers chart nl ho
    unfold addSeriesFromCsv
    dsimp only
    rw [if_pos ho]
    refine foldl_discover_candle headers _
      ⟨(createSeriesInstance SeriesSource.candlestick SeriesType.Candlestick chart
        (some (baseOptions SeriesSource.candlestick)) none none nl).1, ?_, ?_, ?_⟩
    · dsimp only
      exact mapGet?_mapSet_self _ _ _
    · exact (createSeriesInstance_spec _ _ _ _ _ _ _).2.1
    · exact (createSeriesInstance_spec _ _ _ _ _ _ _).2.2.1
  · intro headers chart nl hne
    by_cases ho : allOhlcPresent headers = true
    · exact Or.inl ho
    · unfold addSeriesFromCsv at hne
      dsimp only at hne
      rw [if_neg ho] at hne
      rcases foldl_discover_candle_rev headers _ hne with h1 | h2
      · exact absurd rfl h1
      · exact Or.inr h2

theorem claim_C6_witness :
    allOhlcPresent ["open", "high", "low", "close"] = true ∧
    (∃ inst, mapGet? (addSeriesFromCsv ["open", "high", "low", "close"]
        initialChart 0).1 "candlestick" = some inst ∧
      inst.seriesSource = SeriesSource.candlestick ∧
      inst.seriesType = SeriesType.Candlestick) :=
  ⟨by decide, claim_C6_amended.1 ["open", "high", "low", "close"] initialChart 0 (by decide)⟩

theorem ownPane_Line : ∀ s : SeriesSource, isOwnPane s = true →
    seriesTypeOf s = SeriesType.Line := by decide

theorem ownPane_group_disjoint : ∀ s t : SeriesSource, isOwnPane s = true →
    isOwnPane t = false → groupOfSource s ≠ groupOfSource t := by decide

theorem getPaneIndex_eq (src : SeriesSource) (c : Chart)
    (m : List (String × SeriesInstance)) :
    getPaneIndex src c m =
      match m.find? (fun p => groupOfSource p.2.seriesSource == groupOfSource src) with
      | some p => c.paneOf p.2.series
      | none => c.paneCount := by
  induction m with
  | nil => rfl
  | cons p rest ih =>
    by_cases hg : groupOfSource p.2.seriesSource = groupOfSource src
    · rw [List.find?_cons_of_pos _ (by simpa using hg)]
      simp only [getPaneIndex]
      rw [if_pos hg]
    · rw [List.find?_cons_of_neg _ (by simpa using hg)]
      simp only [getPaneIndex]
      rw [if_neg hg]
      exact ih

theorem mem_mapSet (m : List (String × SeriesInstance)) (k : String)
    (v : SeriesInstance) (p : String × SeriesInstance) (hp : p ∈ mapSet m k v) :
    p = (k, v) ∨ p ∈ m := by
  unfold mapSet at hp
  split_ifs at hp with ha
  · rcases List.mem_map.mp hp with ⟨q, hq, he⟩
    by_cases hqk : (q.1 == k) = true
    · rw [if_pos hqk] at he
      exact Or.inl he.symm
    · rw [if_neg hqk] at he
      exact Or.inr (he ▸ hq)
  · rcases List.mem_append.mp hp with h1 | h2
    · exact Or.inr h1
    · exact Or.inl (by simpa using h2)

theorem createSeriesInstance_paneOf_old (seriesSource : SeriesSource) (ty : SeriesType)
    (c : Chart) (opts : Option SeriesOptions) (paneIndex : Option Nat)
    (suffix : Option String) (nl : Nat) (h : Nat) (hh : h ≠ c.nextHandle) :
    (createSeriesInstance seriesSource ty c opts paneIndex suffix nl).2.1.paneOf h
      = c.paneOf h := by
  cases ty <;> cases paneIndex <;>
    simp [createSeriesInstance, addCandlestickSeries, addHistogramSeries, addLineSeries,
      Chart.addSeriesC, Chart.movePane, Chart.paneOf, hh] <;>
    split_ifs <;>
    simp [Chart.movePane, Chart.paneOf, hh]

theorem paneInv_nil (c : Chart) : PaneInv [] c := by
  refine ⟨?_, ?_, ?_⟩
  · intro p hp
    exact absurd hp (List.not_mem_nil p)
  · intro p hp
    exact absurd hp (List.not_mem_nil p)
  · intro p hp
    exact absurd hp (List.not_mem_nil p)

theorem insert_inv_overlay (st : PassState) (header : String) (t : SeriesSource)
    (opts : Option SeriesOptions) (suf : Option String) (h1 : isOwnPane t = false)
    (inv : PaneInv st.m st.chart) :
    PaneInv (mapSet st.m header
        (createSeriesInstance t (seriesTypeOf t) st.chart opts none suf st.nextLegend).1)
      (createSeriesInstance t (seriesTypeOf t) st.chart opts none suf st.nextLegend).2.1 := by
  obtain ⟨invH, invO, invG⟩ := inv
  have hsrc := (createSeriesInstance_spec t (seriesTypeOf t) st.chart opts none suf
    st.nextLegend).2.1
  have hser := (createSeriesInstance_spec t (seriesTypeOf t) st.chart opts none suf
    st.nextLegend).2.2.2.1
  have hnext := (createSeriesInstance_spec t (seriesTypeOf t) st.chart opts none suf
    st.nextLegend).2.2.2.2.1
  have hnew0 : (createSeriesInstance t (seriesTypeOf t) st.chart opts none suf
      st.nextLegend).2.1.paneOf
      (createSeriesInstance t (seriesTypeOf t) st.chart opts none suf
      st.nextLegend).1.series = 0 := by
    have h := createSeriesInstance_pane t (seriesTypeOf t) st.chart opts none suf st.nextLegend
    cases hty : seriesTypeOf t <;> rw [hty] at h <;> simpa using h
  have hold : ∀ hnd, hnd ≠ st.chart.nextHandle →
      (createSeriesInstance t (seriesTypeOf t) st.chart opts none suf
        st.nextLegend).2.1.paneOf hnd = st.chart.paneOf hnd :=
    fun hnd hne => createSeriesInstance_paneOf_old t (seriesTypeOf t) st.chart opts none suf
      st.nextLegend hnd hne
  refine ⟨?_, ?_, ?_⟩
  · intro p hp
    rcases mem_mapSet _ _ _ _ hp with rfl | hpm
    · dsimp only
      rw [hnext, hser]
      omega
    · rw [hnext]
      have := invH p hpm
      omega
  · intro p hp hpo
    rcases mem_mapSet _ _ _ _ hp with rfl | hpm
    · exact hnew0
    · have hne : p.2.series ≠ st.chart.nextHandle := Nat.ne_of_lt (invH p hpm)
      rw [hold p.2.series hne]
      exact invO p hpm hpo
  · intro p hp q hq hg
    rcases mem_mapSet _ _ _ _ hp with rfl | hpm <;> rcases mem_mapSet _ _ _ _ hq with rfl | hqm
    · rfl
    · dsimp only at hg ⊢
      rw [hsrc] at hg
      have hqo : isOwnPane q.2.seriesSource = false := by
        rcases Bool.eq_false_or_eq_true (isOwnPane q.2.seriesSource) with htr | hf
        · exact absurd hg.symm (ownPane_group_disjoint q.2.seriesSource t htr h1)
        · exact hf
      have hneq : q.2.series ≠ st.chart.nextHandle := Nat.ne_of_lt (invH q hqm)
      rw [hold q.2.series hneq, invO q hqm hqo]
      exact hnew0
    · dsimp only at hg ⊢
      rw [hsrc] at hg
      have hpo : isOwnPane p.2.seriesSource = false := by
        rcases Bool.eq_false_or_eq_true (isOwnPane p.2.seriesSource) with htr | hf
        · exact absurd hg (ownPane_group_disjoint p.2.seriesSource t htr h1)
        · exact hf
      have hnep : p.2.series ≠ st.chart.nextHandle := Nat.ne_of_lt (invH p hpm)
      rw [hold p.2.series hnep, invO p hpm hpo]
      exact hnew0.symm
    · have hnep : p.2.series ≠ st.chart.nextHandle := Nat.ne_of_lt (invH p hpm)
      have hneq : q.2.series ≠ st.chart.nextHandle := Nat.ne_of_lt (invH q hqm)
      rw [hold p.2.series hnep, hold q.2.series hneq]
      exact invG p hpm q hqm hg

theorem insert_inv_ownPane (st : PassState) (header : String) (t : SeriesSource)
    (opts : Option SeriesOptions) (suf : Option String) (h1 : isOwnPane t = true)
    (inv : PaneInv st.m st.chart) :
    PaneInv (mapSet st.m header
        (createSeriesInstance t SeriesType.Line st.chart opts
          (some (getPaneIndex t st.chart st.m)) suf st.nextLegend).1)
      (createSeriesInstance t SeriesType.Line st.chart opts
          (some (getPaneIndex t st.chart st.m)) suf st.nextLegend).2.1 := by
  obtain ⟨invH, invO, invG⟩ := inv
  have hsrc := (createSeriesInstance_spec t SeriesType.Line st.chart opts
    (some (getPaneIndex t st.chart st.m)) suf st.nextLegend).2.1
  have hser := (createSeriesInstance_spec t SeriesType.Line st.chart opts
    (some (getPaneIndex t st.chart st.m)) suf st.nextLegend).2.2.2.1
  have hnext := (createSeriesInstance_spec t SeriesType.Line st.chart opts
    (some (getPaneIndex t st.chart st.m)) suf st.nextLegend).2.2.2.2.1
  have hnewq : (createSeriesInstance t SeriesType.Line st.chart opts
      (some (getPaneIndex t st.chart st.m)) suf st.nextLegend).2.1.paneOf
      (createSeriesInstance t SeriesType.Line st.chart opts
      (some (getPaneIndex t st.chart st.m)) suf st.nextLegend).1.series
      = getPaneIndex t st.chart st.m := by
    simpa using createSeriesInstance_pane t SeriesType.Line st.chart opts
      (some (getPaneIndex t st.chart st.m)) suf st.nextLegend
  have hold : ∀ hnd, hnd ≠ st.chart.nextHandle →
      (createSeriesInstance t SeriesType.Line st.chart opts
        (some (getPaneIndex t st.chart st.m)) suf st.nextLegend).2.1.paneOf hnd
      = st.chart.paneOf hnd :=
    fun hnd hne => createSeriesInstance_paneOf_old t SeriesType.Line st.chart opts
      (some (getPaneIndex t st.chart st.m)) suf st.nextLegend hnd hne
  have holdm : ∀ q ∈ st.m, groupOfSource q.2.seriesSource = groupOfSource t →
      (createSeriesInstance t SeriesType.Line st.chart opts
        (some (getPaneIndex t st.chart st.m)) suf st.nextLegend).2.1.paneOf q.2.series
      = getPaneIndex t st.chart st.m := by
    intro q hqm hqg
    have hneq : q.2.series ≠ st.chart.nextHandle := Nat.ne_of_lt (invH q hqm)
    rw [hold q.2.series hneq, getPaneIndex_eq]
    rcases hfq : st.m.find?
        (fun p0 => groupOfSource p0.2.seriesSource == groupOfSource t) with _ | p0
    · have := List.find?_eq_none.mp hfq q hqm
      simp only [beq_iff_eq] at this
      exact absurd hqg this
    · have hp0m := List.mem_of_find?_eq_some hfq
      have hp0g : groupOfSource p0.2.seriesSource = groupOfSource t := by
        simpa using List.find?_some hfq
      rw [hfq]
      exact invG q hqm p0 hp0m (hqg.trans hp0g.symm)
  refine ⟨?_, ?_, ?_⟩
  · intro p hp
    rcases mem_mapSet _ _ _ _ hp with rfl | hpm
    · dsimp only
      rw [hnext, hser]
      omega
    · rw [hnext]
      have := invH p hpm
      omega
  · intro p hp hpo
    rcases mem_mapSet _ _ _ _ hp with rfl | hpm
    · dsimp only at hpo
      rw [hsrc] at hpo
      rw [h1] at hpo
      exact absurd hpo (by simp)
    · have hne : p.2.series ≠ st.chart.nextHandle := Nat.ne_of_lt (invH p hpm)
      rw [hold p.2.series hne]
      exact invO p hpm hpo
  · intro p hp q hq hg
    rcases mem_mapSet _ _ _ _ hp with rfl | hpm <;> rcases mem_mapSet _ _ _ _ hq with rfl | hqm
    · rfl
    · dsimp only at hg ⊢
      rw [hsrc] at hg
      rw [hnewq, holdm q hqm hg.symm]
    · dsimp only at hg ⊢
      rw [hsrc] at hg
      rw [hnewq, holdm p hpm hg]
    · have hnep : p.2.series ≠ st.chart.nextHandle := Nat.ne_of_lt (invH p hpm)
      have hneq : q.2.series ≠ st.chart.nextHandle := Nat.ne_of_lt (invH q hqm)
      rw [hold p.2.series hnep, hold q.2.series hneq]
      exact invG p hpm q hqm hg

theorem discoverStep_inv (st : PassState) (header : String)
    (inv : PaneInv st.m st.chart) :
    PaneInv (discoverStep st header).m (discoverStep st header).chart := by
  cases e : matchSource header with
  | none =>
    have hstep : discoverStep st header = st := by
      unfold discoverStep
      rw [e]
    rw [hstep]
    exact inv
  | some t =>
    unfold discoverStep
    rw [e]
    dsimp only
    split_ifs with h1 h2
    · rw [ownPane_Line t h1]
      exact insert_inv_ownPane st header t (some (baseOptions t))
        (some (strDrop header (keyStr t).length)) h1 inv
    · simp only [Bool.not_eq_true] at h1
      exact insert_inv_overlay st header t
        (some (getSourceOptions t (st.counts t)))
        (some (strDrop header (keyStr t).length)) h1 inv
    · simp only [Bool.not_eq_true] at h1
      exact insert_inv_overlay st header t (some (baseOptions t))
        (some (strDrop header (keyStr t).length)) h1 inv

theorem foldl_discover_inv (headers : List String) (st : PassState)
    (inv : PaneInv st.m st.chart) :
    PaneInv (headers.foldl discoverStep st).m (headers.foldl discoverStep st).chart := by
  induction headers generalizing st with
  | nil => exact inv
  | cons hd tl ih => exact ih (discoverStep st hd) (discoverStep_inv st hd inv)

theorem addSeriesFromCsv_inv (headers : List String) (chart : Chart) (nl : Nat) :
    PaneInv (addSeriesFromCsv headers chart nl).1 (addSeriesFromCsv headers chart nl).2.1 := by
  unfold addSeriesFromCsv
  dsimp only
  by_cases ho : allOhlcPresent headers = true
  · rw [if_pos ho]
    exact foldl_discover_inv headers _
      (insert_inv_overlay ⟨[], chart, nl, initialCounts⟩ "candlestick"
        SeriesSource.candlestick (some (baseOptions SeriesSource.candlestick)) none
        (by decide) (paneInv_nil chart))
  · rw [if_neg ho]
    exact foldl_discover_inv headers _ (paneInv_nil chart)

/-- C3: `getPaneIndex` returns the pane of the first already-built
instance whose group (registry indicator, or bare source key) equals
the new series' group, and the current chart pane count otherwise;
consequently, in any discovery pass, any two built instances sharing
one group end up with equal pane indices on the resulting chart. -/
theorem claim_C3 :
    (∀ (seriesSource : SeriesSource) (c : Chart) (m : List (String × SeriesInstance)),
      getPaneIndex seriesSource c m =
        match m.find? (fun p =>
            groupOfSource p.2.seriesSource == groupOfSource seriesSource) with
        | some p => c.paneOf p.2.series
        | none => c.paneCount) ∧
    (∀ (headers : List String) (chart : Chart) (nextLegend : Nat)
        (p q : String × SeriesInstance),
      p ∈ (addSeriesFromCsv headers chart nextLegend).1 →
      q ∈ (addSeriesFromCsv headers chart nextLegend).1 →
      groupOfSource p.2.seriesSource = groupOfSource q.2.seriesSource →
      (addSeriesFromCsv headers chart nextLegend).2.1.paneOf p.2.series
        = (addSeriesFromCsv headers chart nextLegend).2.1.paneOf q.2.series) :=
  ⟨getPaneIndex_eq,
    fun headers chart nextLegend p q hp hq hg =>
      (addSeriesFromCsv_inv headers chart nextLegend).2.2 p hp q hq hg⟩

theorem claim_C3_witness :
    (("adx_14", (⟨some "_14", .adx, .Line, 0, none, 0⟩ : SeriesInstance))
      ∈ (addSeriesFromCsv ["adx_14", "plusDi_14"] initialChart 0).1) ∧
    (("plusDi_14", (⟨some "_14", .plusDi, .Line, 1, none, 1⟩ : SeriesInstance))
      ∈ (addSeriesFromCsv ["adx_14", "plusDi_14"] initialChart 0).1) ∧
    groupOfSource SeriesSource.adx = groupOfSource SeriesSource.plusDi ∧
    (addSeriesFromCsv ["adx_14", "plusDi_14"] initialChart 0).2.1.paneOf 0
      = (addSeriesFromCsv ["adx_14", "plusDi_14"] initialChart 0).2.1.paneOf 1 :=
  ⟨by decide, by decide, by decide,
    claim_C3.2 ["adx_14", "plusDi_14"] initialChart 0
      ("adx_14", ⟨some "_14", .adx, .Line, 0, none, 0⟩)
      ("plusDi_14", ⟨some "_14", .plusDi, .Line, 1, none, 1⟩)
      (by decide) (by decide) (by decide)⟩
